import Mathlib

/-!
Verification development for the web5 write path of the rsky personal-data-server
(crates rsky-pds and rsky-lexicon, module com/atproto/web5).

The Rust handlers `create_account`, `inner_pre_writes`, `inner_direct_writes`,
`inner_index_action` and `inner_pre_index_action`, together with the helpers in
`plc/web5_types.rs`, are embedded shallowly: pure string helpers become Lean
functions over `List Char`, and each handler becomes a pure function from an
explicit environment (the outcomes of the account store, the object store, the
on-chain identity resolver and the sequencer) to a result together with a trace
of the side effects it attempted, in order.  Collaborator code that lives
outside the embedded sources (the actor store, the sequencer internals, the
lexicon statement strings) is modelled from the specification and is marked as
such in its doc comment.
-/

deriving instance DecidableEq for Except

namespace Web5

/-! ## Rust string-function models -/

/-- Model of Rust `str::starts_with` on character lists: `isPre p s` is true
iff `p` is a prefix of `s`. -/
def isPre : List Char → List Char → Bool
  | [], _ => true
  | _ :: _, [] => false
  | a :: as, b :: bs => a == b && isPre as bs

/-- Model of Rust `str::contains` (substring containment) on character lists. -/
def containsSub : List Char → List Char → Bool
  | [], needle => isPre needle []
  | c :: t, needle => isPre needle (c :: t) || containsSub t needle

/-- Split a character list at every newline character.  The result always has
one more piece than there are newlines; it is never empty. -/
def splitNl : List Char → List (List Char)
  | [] => [[]]
  | c :: t =>
    if c = '\n' then [] :: splitNl t
    else
      match splitNl t with
      | [] => [[c]]
      | h :: r => (c :: h) :: r

/-- Drop one trailing carriage return, as Rust `str::lines` does for pieces
that were terminated by a newline. -/
def stripCr (l : List Char) : List Char :=
  if l.getLast? = some '\r' then l.dropLast else l

/-- Post-processing of the split pieces for `rustLines`: every piece that was
followed by a newline has one trailing `'\r'` stripped; the final piece is
dropped when empty (the text ended with a newline) and kept as-is otherwise. -/
def rustLinesPost : List (List Char) → List (List Char)
  | [] => []
  | [last] => if last = [] then [] else [last]
  | piece :: rest => stripCr piece :: rustLinesPost rest

/-- Model of Rust `str::lines`: split at `'\n'`, strip a `'\r'` at the end of
every piece that was followed by a newline, and drop a final empty piece
(which arises exactly when the text ends with a newline). -/
def rustLines (l : List Char) : List (List Char) :=
  rustLinesPost (splitNl l)

/-- Fuel-driven loop of `trimStartMatchesL` (structural recursion so that the
kernel can evaluate it; `s.length` fuel always suffices). -/
def trimStartCore : Nat → List Char → List Char → List Char
  | 0, _, s => s
  | fuel + 1, pat, s =>
    if !pat.isEmpty && isPre pat s then trimStartCore fuel pat (s.drop pat.length) else s

/-- Model of Rust `str::trim_start_matches`: repeatedly remove the pattern
from the front while it is a prefix. -/
def trimStartMatchesL (pat : List Char) (s : List Char) : List Char :=
  trimStartCore s.length pat s

/-- Model of Rust `str::trim` (whitespace removal from both ends). -/
def rustTrim (l : List Char) : List Char :=
  ((l.dropWhile Char.isWhitespace).reverse.dropWhile Char.isWhitespace).reverse

/-- Model of Rust `str::to_lowercase` restricted to the simple per-character
case mapping. -/
def rustToLower (s : String) : String := ⟨s.data.map Char.toLower⟩

/-- The decimal digit characters, used to characterise the output of the
decimal formatter. -/
def digitChar : Nat → Char
  | 0 => '0' | 1 => '1' | 2 => '2' | 3 => '3' | 4 => '4'
  | 5 => '5' | 6 => '6' | 7 => '7' | 8 => '8' | _ => '9'

/-- Numeric value of a decimal digit character. -/
def digitVal (c : Char) : Nat := c.toNat - 48

/-- Fuel-driven accumulating decimal formatter: digits of `n` in order,
followed by `acc` (structural recursion so that the kernel can evaluate it;
fuel `n` always suffices). -/
def natDigitsCore : Nat → Nat → List Char → List Char
  | 0, _, acc => acc
  | fuel + 1, n, acc =>
    if n = 0 then acc else natDigitsCore fuel (n / 10) (digitChar (n % 10) :: acc)

/-- Model of Rust `u64` decimal `Display` formatting. -/
def natDigits (n : Nat) : List Char :=
  if n = 0 then ['0'] else natDigitsCore n n []

/-- Decimal value of a character list read as digits. -/
def decValue (l : List Char) : Nat := l.foldl (fun a c => a * 10 + digitVal c) 0

/-- Remove one leading plus sign, as Rust integer parsing accepts. -/
def stripPlus : List Char → List Char
  | [] => []
  | c :: t => if c = '+' then t else c :: t

/-- Model of Rust `str::parse::<u64>()`: an optional leading plus sign, then a
nonempty run of decimal digits whose value fits in 64 bits. -/
def parseU64 (l : List Char) : Option Nat :=
  let l := stripPlus l
  if l.isEmpty then none
  else if l.all Char.isDigit then
    let n := decValue l
    if n < 2 ^ 64 then some n else none
  else none

/-! ## Models of the helpers in `plc/web5_types.rs` -/

/-- The line label searched for by `extract_timestamp`. -/
def tsLabel : List Char := "Timestamp: ".data

/-- Scan lines for the first one starting with `Timestamp: `, mirroring the
loop in `extract_timestamp`. -/
def extract_timestamp_lines : List (List Char) → Except String Nat
  | [] => .error "Cant find Timestamp in message"
  | line :: rest =>
    if isPre tsLabel line then
      match parseU64 (rustTrim (trimStartMatchesL tsLabel line)) with
      | some t => .ok t
      | none => .error "Timestamp parse error"
    else extract_timestamp_lines rest

/-- Model of `extract_timestamp` from `plc/web5_types.rs`. -/
def extract_timestamp (message : String) : Except String Nat :=
  extract_timestamp_lines (rustLines message.data)

/-- Model of `timestamp_check` from `plc/web5_types.rs`.  The verification
clock is passed explicitly; Rust `u64::saturating_sub` is truncated `Nat`
subtraction.  The Rust clock-failure branch is not modelled (the clock is a
given). -/
def timestamp_check (now ts : Nat) : Bool := now - ts < 120

/-- Core of `statement_check`: scan lines for one containing the expected
statement as a substring; if none does, the Rust function bails with an
error (it never returns `Ok(false)`). -/
def statement_check_lines : List (List Char) → List Char → Except String Bool
  | [], _ => .error "Statement check error"
  | line :: rest, stmt =>
    if containsSub line stmt then .ok true else statement_check_lines rest stmt

/-- Model of `statement_check` from `plc/web5_types.rs`, taking the expected
statement string (the Rust code obtains it from `index.statement()`). -/
def statement_check (message : String) (stmt : String) : Except String Bool :=
  statement_check_lines (rustLines message.data) stmt.data

/-- Model of `generate_challenge` from `plc/web5_types.rs`.  The Unix
timestamp is passed explicitly; the statement string is the one obtained
from `index.statement()` in Rust. -/
def generate_challenge (domain ckb_addr handle : String) (ts : Nat) (stmt : String) : String :=
  "Web5 Login\nDomain: " ++ domain ++ "\nAddress: " ++ ckb_addr ++ "\nHandle: " ++ handle
    ++ "\nTimestamp: " ++ (⟨natDigits ts⟩ : String) ++ "\nStatement: " ++ stmt

/-! ## Further Rust standard-library models used by the handlers -/

/-- Model of Rust `str::starts_with` at the `String` level. -/
def rustStartsWith (s p : String) : Bool := isPre p.data s.data

/-- Model of a Rust byte-slice `[n..]` on an ASCII-prefixed string. -/
def rustDrop (s : String) (n : Nat) : String := ⟨s.data.drop n⟩

/-- The `0x`/`0X` prefix strip applied to `signed_bytes` in `inner_index_action`. -/
def strip0x (s : String) : String :=
  if rustStartsWith s "0x" || rustStartsWith s "0X" then rustDrop s 2 else s

/-- Value of one hexadecimal digit, as the Rust `hex` crate accepts it. -/
def hexVal (c : Char) : Option Nat :=
  if c.isDigit then some (c.toNat - 48)
  else if 'a' ≤ c ∧ c ≤ 'f' then some (c.toNat - 87)
  else if 'A' ≤ c ∧ c ≤ 'F' then some (c.toNat - 55)
  else none

/-- Model of `hex::decode`: fails on odd length or any non-hex character. -/
def hexDecodeL : List Char → Option (List Nat)
  | [] => some []
  | [_] => none
  | a :: b :: t =>
    match hexVal a, hexVal b, hexDecodeL t with
    | some x, some y, some r => some ((x * 16 + y) :: r)
    | _, _, _ => none

/-! ## Data model -/

/-- The `ApiError` variants reached by the embedded handlers.  The last four
constructors stand for collaborator failures whose concrete Rust error values
live outside the embedded sources; they are modelled from the specification
error taxonomy (§7). -/
inductive ApiError where
  | RuntimeError
  | InvalidLogin
  | InvalidHandle
  | InvalidRequest (msg : String)
  | AuthRequiredError (msg : String)
  | CkbAddrNotFound
  | CkbAddrNoCell
  | CkbDidocCellNotFound
  | IncompatibleDidDoc
  | InvalidCkbError (msg : String)
  | UnsupportedDomain
  | Anyhow (msg : String)
  | SwapMismatch
  | CryptoError
  | StorageError
  | SequencerError
deriving DecidableEq

/-- A named service endpoint of a resolved identity document. -/
structure Service where
  type : String
  endpoint : String
deriving DecidableEq

/-- Model of `Web5DocumentData` from `plc/web5_types.rs` (the `BTreeMap`s
become association lists in key order). -/
structure Web5DocumentData where
  verification_methods : List (String × String)
  also_known_as : List String
  services : List (String × Service)
deriving DecidableEq

/-- The fields of the account row used by the embedded handlers. -/
structure ActorAccount where
  did : String
  handle : Option String
  ckb_address : Option String
  deactivated_at : Option String
  email : Option String
  email_confirmed_at : Option String
deriving DecidableEq

/-- The account statuses sequenced by the embedded handlers. -/
inductive AccountStatus where
  | Active
  | Deleted
deriving DecidableEq

/-- Commit metadata (`cid` and `rev`) returned by the object store. -/
structure CommitMeta where
  cid : String
  rev : String
deriving DecidableEq

/-- The unsigned commit produced by `generate_commit` for the two-phase
protocol: `{did, rev, data, prev, version}`. -/
structure UnsignedCommit where
  did : String
  rev : String
  data : String
  prev : Option String
  version : Nat
deriving DecidableEq

/-- The side effects a handler can attempt on its collaborators, recorded in
program order. -/
inductive Effect where
  | getAccount (id : String)
  | resolveDidoc (addr : String)
  | prepareWrite
  | storeCreateRepo
  | storeGenCommit
  | storeApply
  | storeDestroy (did : String)
  | accCreate (did : String)
  | accCreateSession (did : String)
  | accDelete (did : String)
  | accUpdateRoot (did cid rev : String)
  | seqIdentity (did : String) (handle : Option String)
  | seqAccount (did : String) (status : AccountStatus)
  | seqCommit (did : String)
  | seqSync (did : String)
  | seqCompact (did : String) (excl : List Nat)
deriving DecidableEq

/-- Effects that touch the durable object store. -/
def Effect.isObjectStore : Effect → Bool
  | .storeCreateRepo | .storeGenCommit | .storeApply | .storeDestroy _ => true
  | _ => false

/-- Effects that mutate durable state or create credentials: everything except
the pure reads (account lookup, identity resolution) and write preparation
(which per §4.4 only normalizes the payload) and unsigned-commit generation
(which per §4.5 makes no durable state change). -/
def Effect.isMutation : Effect → Bool
  | .getAccount _ | .resolveDidoc _ | .prepareWrite | .storeGenCommit => false
  | _ => true

/-- Sequencer append effects. -/
def Effect.isSeqEvent : Effect → Bool
  | .seqIdentity _ _ | .seqAccount _ _ | .seqCommit _ | .seqSync _ => true
  | _ => false

/-- `isOkB r` is true iff `r` is a success. -/
def isOkB {α : Type} : Except ApiError α → Bool
  | .ok _ => true
  | .error _ => false

/-! ## Lexicon input variants -/

/-- The write operations of `directWrites`/`preDirectWrites` requests
(`RefWriteCreate`/`RefWriteUpdate`/`RefWriteDelete`); the record value is kept
opaque. -/
inductive WriteOp where
  | create (collection : String) (rkey : Option String) (value : String)
  | update (collection : String) (rkey : String) (value : String)
  | delete (collection : String) (rkey : String)
deriving DecidableEq

/-- The prepared-write fields consumed by `write_to_output_result`; the
prepared record internals live in `rsky-repo` outside the embedded sources. -/
inductive PreparedWrite where
  | create (cid uri : String)
  | update (cid uri : String)
  | delete
deriving DecidableEq

/-- The two privileged actions of `indexAction`. -/
inductive IndexActionInputRef where
  | CreateSessionIndex
  | DeleteAccountIndex
deriving DecidableEq

/-- The two privileged actions of `preIndexAction`. -/
inductive PreIndexActionInputRef where
  | CreateSessionIndex
  | DeleteAccountIndex
deriving DecidableEq

/-- Modelled from the spec: the per-action expected statement strings are
defined by `IndexActionInputRef::statement()` in the lexicon crate, outside
the embedded sources; the spec (§4.2, §4.7) only requires a fixed single-line
statement per action, bound into the challenge.  They are modelled as fixed
distinct single-line strings. -/
def IndexActionInputRef.statement : IndexActionInputRef → String
  | .CreateSessionIndex => "Create a new session"
  | .DeleteAccountIndex => "Delete the account"

/-- Modelled from the spec: statement strings for the `preIndexAction`
variants, matching `IndexActionInputRef.statement` action for action. -/
def PreIndexActionInputRef.statement : PreIndexActionInputRef → String
  | .CreateSessionIndex => "Create a new session"
  | .DeleteAccountIndex => "Delete the account"

/-! ## Object-store collaborator models -/

/-- Modelled from the spec (§4.5): the signature-verification and persistence
half of `ActorStore::verify_writes`.  A bad signature is a `CryptoError`, a
persistence failure a `StorageError`; only a full success mutates the store. -/
def verify_writes_apply (sigOk storageOk : Bool) (commit : CommitMeta) :
    Except ApiError CommitMeta :=
  if !sigOk then .error .CryptoError
  else if !storageOk then .error .StorageError
  else .ok commit

/-- Modelled from the spec (§4.5, §5): `ActorStore::verify_writes` (the
`apply verified writes` verb), whose implementation lives outside the embedded
sources.  `livePrev` is the account's live previous-commit identifier; a
caller-supplied `swap` expectation that differs from it fails with
`SwapMismatch` before any mutation; otherwise the signature is verified and
the writes are persisted, producing the new commit (all-or-nothing, so the
store is mutated exactly when the result is a success). -/
def verify_writes (livePrev : Option String) (swap : Option String)
    (sigOk storageOk : Bool) (commit : CommitMeta) :
    Except ApiError CommitMeta :=
  match swap with
  | some c =>
    if livePrev ≠ some c then .error .SwapMismatch
    else verify_writes_apply sigOk storageOk commit
  | none => verify_writes_apply sigOk storageOk commit

/-- Modelled from the spec: a DAG-CBOR-style deterministic byte serialization
of the unsigned commit (`serde_ipld_dagcbor::to_vec` in
`inner_pre_writes`; the external library's exact byte layout is not embedded,
only that it is a fixed total function of the commit's five fields). -/
def encStr (s : String) : List Nat := s.data.length :: s.data.map Char.toNat

/-- Encoding of the optional previous-commit field (CBOR null for `none`). -/
def encOptStr : Option String → List Nat
  | none => [246]
  | some s => 1 :: encStr s

/-- Modelled from the spec: the serialized unsigned-commit bytes handed to the
external signer. -/
def dagCborCommit (c : UnsignedCommit) : List Nat :=
  165 :: encStr "did" ++ encStr c.did ++ encStr "rev" ++ encStr c.rev
    ++ encStr "data" ++ encStr c.data ++ encStr "prev" ++ encOptStr c.prev
    ++ encStr "version" ++ [c.version % 256]

/-- One hexadecimal digit character (lower case, as `hex::encode`). -/
def hexChar : Nat → Char
  | 0 => '0' | 1 => '1' | 2 => '2' | 3 => '3' | 4 => '4'
  | 5 => '5' | 6 => '6' | 7 => '7' | 8 => '8' | 9 => '9'
  | 10 => 'a' | 11 => 'b' | 12 => 'c' | 13 => 'd' | 14 => 'e' | _ => 'f'

/-- Model of `hex::encode` on a byte list. -/
def hexEncodeBytes (bs : List Nat) : String :=
  ⟨bs.foldr (fun b acc => hexChar (b / 16 % 16) :: hexChar (b % 16) :: acc) []⟩

/-! ## `directWrites` (`direct_writes.rs`) -/

/-- The fields of `DirectWritesInput` used by the handler (the signed `root`
is forwarded to the object store and does not influence the embedded control
flow). -/
structure DwRequest where
  repo : String
  validate : Option Bool
  swap_commit : Option String
  writes : List WriteOp
  signing_key : String
  ckb_addr : Option String
deriving DecidableEq

/-- Environment of collaborator outcomes for one `directWrites` request:
the account row returned by `get_account`, the resolver result for the
supplied address, the authenticated credentials, the outcome of preparing
each write, CID parsing, the account's live previous commit, and the
object-store / sequencer / account-store outcomes. -/
structure DwEnv where
  account : Option ActorAccount
  resolve : Except ApiError Web5DocumentData
  authDid : Option (Option String)
  prepare : WriteOp → Except ApiError PreparedWrite
  parseCid : String → Option String
  livePrev : Option String
  storeCommit : CommitMeta
  sigOk : Bool
  storageOk : Bool
  seqCommitOk : Bool
  updateRootOk : Bool

/-- The per-write results of a `directWrites` response. -/
inductive DwOutRef where
  | createRes (uri cid : String) (validation_status : Option String)
  | updateRes (uri cid : String) (validation_status : Option String)
  | deleteRes
deriving DecidableEq

/-- Model of `write_to_output_result` from `direct_writes.rs`. -/
def write_to_output_result (w : PreparedWrite) (validation : Option Bool) : DwOutRef :=
  let validation_status := if validation = some true then some "valid" else none
  match w with
  | .create cid uri => .createRes uri cid validation_status
  | .update cid uri => .updateRes uri cid validation_status
  | .delete => .deleteRes

/-- Model of `DirectWritesOutput`. -/
structure DwOutput where
  commit : Option CommitMeta
  results : Option (List DwOutRef)
deriving DecidableEq

/-- First-error sequencing of the prepared writes, as the
`collect::<Result<Vec<_>, _>>` in the handler. -/
def sequenceE : List (Except ApiError PreparedWrite) → Except ApiError (List PreparedWrite)
  | [] => .ok []
  | x :: xs =>
    match x, sequenceE xs with
    | .error e, _ => .error e
    | .ok _, .error e => .error e
    | .ok v, .ok vs => .ok (v :: vs)

/-- The identity-document binding checks of `inner_direct_writes`
(lines 63-80): first `alsoKnownAs` entry must be an `at://` handle equal to
the account's, and the signing key must be among the document's
verification-method values. -/
def dwDidocCheck (res : Except ApiError Web5DocumentData) (account : ActorAccount)
    (signing_key : String) : Except ApiError Unit :=
  match res with
  | .ok didoc =>
    if didoc.also_known_as.length = 0
        || !(rustStartsWith (didoc.also_known_as.headD "") "at://") then
      .error .IncompatibleDidDoc
    else
      let handle := rustDrop (didoc.also_known_as.headD "") 5
      match account.handle with
      | none => .error .InvalidHandle
      | some uh =>
        if uh ≠ handle then .error .InvalidHandle
        else if !((didoc.verification_methods.map Prod.snd).contains signing_key) then
          .error (.InvalidRequest "Signing key is inconsistent with the did doc")
        else .ok ()
  | .error e => .error e

/-- The swap-commit CID parse of `inner_direct_writes` (lines 149-155). -/
def dwSwapCid (parseCid : String → Option String) :
    Option String → Except ApiError (Option String)
  | some s =>
    match parseCid s with
    | some c => .ok (some c)
    | none => .error (.InvalidRequest "Swap commit convert error")
  | none => .ok none

/-- Model of `inner_direct_writes` from `direct_writes.rs`: result plus the
ordered trace of attempted collaborator effects. -/
def inner_direct_writes (env : DwEnv) (req : DwRequest) :
    Except ApiError DwOutput × List Effect :=
  match req.ckb_addr with
  | none => (.error .CkbAddrNotFound, [])
  | some ckb_addr =>
    let tr := [Effect.getAccount req.repo]
    match env.account with
    | none => (.error (.InvalidRequest ("Could not find repo: `" ++ req.repo ++ "`")), tr)
    | some account =>
      if account.ckb_address ≠ some ckb_addr then
        (.error (.InvalidRequest "Address is inconsistent with the original"), tr)
      else
        let tr := tr ++ [Effect.resolveDidoc ckb_addr]
        match dwDidocCheck env.resolve account req.signing_key with
        | .error e => (.error e, tr)
        | .ok _ =>
          if account.deactivated_at.isSome then
            (.error (.InvalidRequest "Account is deactivated"), tr)
          else
            match env.authDid with
            | none => (.error (.AuthRequiredError ""), tr)
            | some none => (.error (.InvalidRequest "Auth credentials require did "), tr)
            | some (some adid) =>
              if account.did ≠ adid then
                (.error (.AuthRequiredError "Did is inconsistent with origin"), tr)
              else if req.writes.length > 200 then
                (.error (.InvalidRequest "Too many writes. Max: 200"), tr)
              else
                let tr := tr ++ req.writes.map (fun _ => Effect.prepareWrite)
                match sequenceE (req.writes.map env.prepare) with
                | .error e => (.error e, tr)
                | .ok prepared =>
                  match dwSwapCid env.parseCid req.swap_commit with
                  | .error e => (.error e, tr)
                  | .ok swapCid =>
                    match verify_writes env.livePrev swapCid env.sigOk env.storageOk
                      env.storeCommit with
                    | .error e => (.error e, tr)
                    | .ok commit =>
                      let tr := tr ++ [Effect.storeApply, Effect.seqCommit account.did]
                      if !env.seqCommitOk then (.error .SequencerError, tr)
                      else
                        let tr := tr ++ [Effect.accUpdateRoot account.did commit.cid commit.rev]
                        if !env.updateRootOk then (.error .StorageError, tr)
                        else
                          (.ok { commit := some commit,
                                 results := some (prepared.map
                                   (fun w => write_to_output_result w req.validate)) }, tr)

/-! ## `preDirectWrites` (`pre_direct_writes.rs`) -/

/-- The fields of `PreDirectWritesInput`. -/
structure PdwRequest where
  repo : String
  validate : Option Bool
  swap_commit : Option String
  writes : List WriteOp
deriving DecidableEq

/-- Environment of collaborator outcomes for one `preDirectWrites` request.
`genCommit` is the unsigned commit the object store computes from the current
repository state and the prepared writes (`ActorStore::generate_commit`,
outside the embedded sources, modelled from the spec §4.5 as a pure
read-only computation). -/
structure PdwEnv where
  account : Option ActorAccount
  authDid : Option (Option String)
  prepare : WriteOp → Except ApiError PreparedWrite
  parseCid : String → Option String
  genCommit : Except ApiError UnsignedCommit

/-- Model of `PreDirectWritesOutput`. -/
structure PdwOutput where
  did : String
  rev : String
  data : String
  prev : Option String
  version : Nat
  un_sign_bytes : String
deriving DecidableEq

/-- Model of `inner_pre_writes` from `pre_direct_writes.rs`. -/
def inner_pre_writes (env : PdwEnv) (req : PdwRequest) :
    Except ApiError PdwOutput × List Effect :=
  let tr := [Effect.getAccount req.repo]
  match env.account with
  | none => (.error (.InvalidRequest ("Could not find repo: `" ++ req.repo ++ "`")), tr)
  | some account =>
    if account.deactivated_at.isSome then
      (.error (.InvalidRequest "Account is deactivated"), tr)
    else
      match env.authDid with
      | none => (.error (.AuthRequiredError ""), tr)
      | some none => (.error (.InvalidRequest "Auth credentials require did "), tr)
      | some (some adid) =>
        if account.did ≠ adid then
          (.error (.AuthRequiredError "Did is inconsistent with origin"), tr)
        else if req.writes.length > 200 then
          (.error (.InvalidRequest "Too many writes. Max: 200"), tr)
        else
          let tr := tr ++ req.writes.map (fun _ => Effect.prepareWrite)
          match sequenceE (req.writes.map env.prepare) with
          | .error e => (.error e, tr)
          | .ok _ =>
            match dwSwapCid env.parseCid req.swap_commit with
            | .error e => (.error e, tr)
            | .ok _ =>
              let tr := tr ++ [Effect.storeGenCommit]
              match env.genCommit with
              | .error e => (.error e, tr)
              | .ok commit =>
                (.ok { did := commit.did, rev := commit.rev, data := commit.data,
                       prev := commit.prev, version := commit.version,
                       un_sign_bytes := hexEncodeBytes (dagCborCommit commit) }, tr)

/-! ## `createAccount` (`create_account.rs`) -/

/-- The fields of `CreateAccountInput` used by the handler (`rootDid` is
`input.root.did`; the signed root itself is forwarded to the object store). -/
structure CaRequest where
  handle : String
  signing_key : String
  password : String
  rootDid : String
  ckb_addr : String
  invite_code : Option String
deriving DecidableEq

/-- Environment of collaborator outcomes for one `createAccount` request. -/
structure CaEnv where
  resolve : Except ApiError Web5DocumentData
  createRepo : Except Unit CommitMeta
  destroyOk : Bool
  createAccount : Except Unit (String × String)
  seqIdentityOk : Bool
  seqAccountOk : Bool
  seqCommitOk : Bool
  seqSyncOk : Bool
  updateRootOk : Bool
deriving DecidableEq

/-- Model of `CreateAccountOutput` (`did_doc` is always `None` in the source). -/
structure CaOutput where
  access_jwt : String
  refresh_jwt : String
  handle : String
  did : String
  did_doc : Option Web5DocumentData
deriving DecidableEq

/-- Model of the `create_account` handler from `create_account.rs`: the
address must have no identity document on chain yet, then the repo is
created, the account row inserted, the four events sequenced in order, and
finally the repo root advanced. -/
def create_account (env : CaEnv) (req : CaRequest) :
    Except ApiError CaOutput × List Effect :=
  let did := req.rootDid
  let tr := [Effect.resolveDidoc req.ckb_addr]
  match env.resolve with
  | .ok _ => (.error (.InvalidCkbError "Already apply did, please change address."), tr)
  | .error .CkbDidocCellNotFound =>
    let tr := tr ++ [Effect.storeCreateRepo]
    match env.createRepo with
    | .error _ =>
      let tr := tr ++ [Effect.storeDestroy did]
      if !env.destroyOk then (.error .StorageError, tr) else (.error .RuntimeError, tr)
    | .ok commit =>
      let tr := tr ++ [Effect.accCreate did]
      match env.createAccount with
      | .error _ =>
        let tr := tr ++ [Effect.storeDestroy did]
        if !env.destroyOk then (.error .StorageError, tr) else (.error .RuntimeError, tr)
      | .ok (access_jwt, refresh_jwt) =>
        let tr := tr ++ [Effect.seqIdentity did (some req.handle)]
        if !env.seqIdentityOk then (.error .RuntimeError, tr)
        else
          let tr := tr ++ [Effect.seqAccount did .Active]
          if !env.seqAccountOk then (.error .RuntimeError, tr)
          else
            let tr := tr ++ [Effect.seqCommit did]
            if !env.seqCommitOk then (.error .RuntimeError, tr)
            else
              let tr := tr ++ [Effect.seqSync did]
              if !env.seqSyncOk then (.error .RuntimeError, tr)
              else
                let tr := tr ++ [Effect.accUpdateRoot did commit.cid commit.rev]
                if !env.updateRootOk then (.error .RuntimeError, tr)
                else
                  (.ok { access_jwt, refresh_jwt, handle := req.handle, did,
                         did_doc := none }, tr)
  | .error e => (.error e, tr)

/-! ## `indexAction` (`index_action.rs`) -/

/-- The fields of `IndexActionInput`. -/
structure IaRequest where
  did : String
  message : String
  signing_key : String
  signed_bytes : String
  ckb_addr : Option String
  index : IndexActionInputRef
deriving DecidableEq

/-- Environment of collaborator outcomes for one `indexAction` request.
`account = none` models `get_account` returning `Err(_)`, `some none` models
`Ok(None)`; `sigVerify` is the outcome of `verify_signature` on the decoded
signature. -/
structure IaEnv where
  account : Option (Option ActorAccount)
  resolve : Except ApiError Web5DocumentData
  now : Nat
  sigVerify : Except ApiError Bool
  createSession : Except Unit (String × String)
  destroyOk : Bool
  deleteOk : Bool
  seqAccountOk : Bool
  accountSeq : Nat
  compactOk : Bool

/-- The data the verification phase of `inner_index_action` hands to the
action execution. -/
structure IaVerified where
  user : ActorAccount
  did_doc : Option Web5DocumentData
  handle : String
deriving DecidableEq

/-- The identity-document step of `inner_index_action` (lines 57-76): on a
resolved document, the same binding checks as `directWrites`; on
`CkbDidocCellNotFound` the checks are skipped and the handle is the literal
`deleteHandle`. -/
def iaResolveStep (res : Except ApiError Web5DocumentData) (user : ActorAccount)
    (signing_key : String) : Except ApiError (Option Web5DocumentData × String) :=
  match res with
  | .ok didoc =>
    if didoc.also_known_as.length = 0
        || !(rustStartsWith (didoc.also_known_as.headD "") "at://") then
      .error .IncompatibleDidDoc
    else
      let handle := rustDrop (didoc.also_known_as.headD "") 5
      match user.handle with
      | none => .error .InvalidHandle
      | some uh =>
        if uh ≠ handle then .error .InvalidHandle
        else if !((didoc.verification_methods.map Prod.snd).contains signing_key) then
          .error (.InvalidRequest "Signing key is inconsistent with the did doc")
        else .ok (some didoc, handle)
  | .error .CkbDidocCellNotFound => .ok (none, "deleteHandle")
  | .error e => .error e

/-- The verification phase of `inner_index_action` (lines 30-102): account
lookup, address binding, identity-document step, challenge freshness,
statement check, signature decode and signature verification.  It performs
no mutation. -/
def iaVerify (env : IaEnv) (req : IaRequest) : Except ApiError IaVerified × List Effect :=
  match req.ckb_addr with
  | none => (.error .CkbAddrNotFound, [])
  | some ckb_addr =>
    let did := rustToLower req.did
    let tr := [Effect.getAccount did]
    match env.account with
    | some (some user) =>
      if user.ckb_address ≠ some ckb_addr then
        (.error (.InvalidRequest "Address is inconsistent with the original"), tr)
      else
        let tr := tr ++ [Effect.resolveDidoc ckb_addr]
        match iaResolveStep env.resolve user req.signing_key with
        | .error e => (.error e, tr)
        | .ok (did_doc, handle) =>
          match extract_timestamp req.message with
          | .error e => (.error (.Anyhow e), tr)
          | .ok ts =>
            if !timestamp_check env.now ts then
              (.error (.InvalidRequest "Sign message timeout"), tr)
            else
              let sig := strip0x req.signed_bytes
              match statement_check req.message req.index.statement with
              | .error e => (.error (.Anyhow e), tr)
              | .ok ok =>
                if !ok then (.error (.InvalidRequest "Message statement check error"), tr)
                else
                  match hexDecodeL sig.data with
                  | none => (.error (.InvalidRequest "Signature decode error"), tr)
                  | some _ =>
                    match env.sigVerify with
                    | .error e => (.error e, tr)
                    | .ok false => (.error .RuntimeError, tr)
                    | .ok true => (.ok { user, did_doc, handle }, tr)
    | _ => (.error .InvalidLogin, tr)

/-- The result union of `IndexActionOutput`. -/
inductive IaOutput where
  | CreateSessionResult (did : String) (did_doc : Option Web5DocumentData)
      (handle : String) (email : Option String) (email_confirmed : Bool)
      (access_jwt refresh_jwt : String)
  | DeleteAccountResult
deriving DecidableEq

/-- Model of `inner_index_action` from `index_action.rs`: the verification
phase followed by the execution of the requested action. -/
def inner_index_action (env : IaEnv) (req : IaRequest) :
    Except ApiError IaOutput × List Effect :=
  let did := rustToLower req.did
  match iaVerify env req with
  | (.error e, tr) => (.error e, tr)
  | (.ok v, tr) =>
    match req.index with
    | .CreateSessionIndex =>
      let tr := tr ++ [Effect.accCreateSession v.user.did]
      match env.createSession with
      | .error _ => (.error .RuntimeError, tr)
      | .ok (access_jwt, refresh_jwt) =>
        (.ok (.CreateSessionResult did v.did_doc v.handle v.user.email
          v.user.email_confirmed_at.isSome access_jwt refresh_jwt), tr)
    | .DeleteAccountIndex =>
      let tr := tr ++ [Effect.storeDestroy did]
      if !env.destroyOk then (.error .StorageError, tr)
      else
        let tr := tr ++ [Effect.accDelete did]
        if !env.deleteOk then (.error .RuntimeError, tr)
        else
          let tr := tr ++ [Effect.seqAccount did .Deleted]
          if !env.seqAccountOk then (.error .SequencerError, tr)
          else
            let tr := tr ++ [Effect.seqCompact did [env.accountSeq]]
            if !env.compactOk then (.error .SequencerError, tr)
            else (.ok .DeleteAccountResult, tr)

/-! ## `preIndexAction` (`pre_index_action.rs`) -/

/-- The fields of `PreIndexActionInput`. -/
structure PiaRequest where
  did : String
  ckb_addr : Option String
  index : PreIndexActionInputRef
deriving DecidableEq

/-- Environment for one `preIndexAction` request: the resolver outcome, the
`PDS_HOSTNAME` value, and the clock read by `generate_challenge`. -/
structure PiaEnv where
  resolve : Except ApiError Web5DocumentData
  domain : Option String
  now : Nat
deriving DecidableEq

/-- Model of `PreIndexActionOutput`. -/
structure PiaOutput where
  did : String
  handle : String
  message : String
deriving DecidableEq

/-- Model of `inner_pre_index_action` from `pre_index_action.rs`.  The
`CkbDidocCellNotFound` fallback to the literal handle `deleteHandle` is
accepted only for the delete-account action. -/
def inner_pre_index_action (env : PiaEnv) (req : PiaRequest) :
    Except ApiError PiaOutput × List Effect :=
  let did := rustToLower req.did
  match req.ckb_addr with
  | none => (.error .CkbAddrNotFound, [])
  | some ckb_addr =>
    let tr := [Effect.resolveDidoc ckb_addr]
    let handleRes : Except ApiError String :=
      match env.resolve with
      | .ok didoc =>
        if didoc.also_known_as.length = 0
            || !(rustStartsWith (didoc.also_known_as.headD "") "at://") then
          .error .IncompatibleDidDoc
        else .ok (rustDrop (didoc.also_known_as.headD "") 5)
      | .error .CkbDidocCellNotFound =>
        if req.index = .DeleteAccountIndex then .ok "deleteHandle"
        else .error .CkbDidocCellNotFound
      | .error e => .error e
    match handleRes with
    | .error e => (.error e, tr)
    | .ok handle =>
      match env.domain with
      | none => (.error .UnsupportedDomain, tr)
      | some domain =>
        (.ok { did, handle,
               message := generate_challenge domain ckb_addr handle env.now
                 req.index.statement }, tr)

/-- The checks of `inner_direct_writes` that precede the batch-size check:
address present, account found, address binding, identity-document binding,
account active, authenticated did matching. -/
def dwPreSize (env : DwEnv) (req : DwRequest) (a : String) (account : ActorAccount) : Prop :=
  req.ckb_addr = some a ∧ env.account = some account ∧
    account.ckb_address = some a ∧
    dwDidocCheck env.resolve account req.signing_key = .ok () ∧
    account.deactivated_at = none ∧
    env.authDid = some (some account.did)

/-- The checks of `inner_pre_writes` that precede the batch-size check. -/
def pdwPreSize (env : PdwEnv) (account : ActorAccount) : Prop :=
  env.account = some account ∧ account.deactivated_at = none ∧
    env.authDid = some (some account.did)

/-- Interpreting the original claim: a timestamp within 120 seconds of the
clock in either direction. -/
def withinWindow (now ts : Nat) : Bool :=
  if ts ≤ now then now - ts < 120 else ts - now < 120

/-- Sample account row for concrete runs. -/
def c3user : ActorAccount :=
  { did := "did:web5:alice", handle := some "alice.test", ckb_address := some "addr1",
    deactivated_at := none, email := none, email_confirmed_at := none }

/-- Environment for the C3 counterexample run: clock at 1000, all
collaborators succeeding, resolver in the document-missing fallback. -/
def c3env : IaEnv :=
  { account := some (some c3user), resolve := .error .CkbDidocCellNotFound, now := 1000,
    sigVerify := .ok true, createSession := .ok ("aj", "rj"), destroyOk := true,
    deleteOk := true, seqAccountOk := true, accountSeq := 7, compactOk := true }

/-- Request for the C3 counterexample run: the challenge message carries a
timestamp 4000 seconds in the future and a line that merely contains the
expected statement. -/
def c3req : IaRequest :=
  { did := "did:web5:alice", message := "Timestamp: 5000\nxx Create a new session yy",
    signing_key := "k", signed_bytes := "0xab", ckb_addr := some "addr1",
    index := .CreateSessionIndex }

/-! ## Concrete fixtures and witness runs -/

/-- Sample resolved identity document binding handle `alice.test` and signing
key `zKey1`. -/
def wDoc : Web5DocumentData :=
  { verification_methods := [("atproto", "zKey1")], also_known_as := ["at://alice.test"],
    services := [] }

/-- Sample account row matching `wDoc`. -/
def wAccount : ActorAccount :=
  { did := "did:web5:alice", handle := some "alice.test", ckb_address := some "addr1",
    deactivated_at := none, email := none, email_confirmed_at := none }

/-- All-success `directWrites` environment. -/
def wDwEnv : DwEnv :=
  { account := some wAccount, resolve := .ok wDoc,
    authDid := some (some "did:web5:alice"), prepare := fun _ => .ok .delete,
    parseCid := fun s => some s, livePrev := some "cidPrev",
    storeCommit := { cid := "cidNew", rev := "rev2" }, sigOk := true, storageOk := true,
    seqCommitOk := true, updateRootOk := true }

/-- A `directWrites` request whose swap expectation does not match the live
previous commit `cidPrev`. -/
def wDwReqSwap : DwRequest :=
  { repo := "did:web5:alice", validate := some true, swap_commit := some "cidOther",
    writes := [.delete "app.bbs.post" "rkey1"], signing_key := "zKey1",
    ckb_addr := some "addr1" }

/-- A `directWrites` request with 201 write operations. -/
def wDwReq201 : DwRequest :=
  { repo := "did:web5:alice", validate := some true, swap_commit := none,
    writes := List.replicate 201 (.delete "app.bbs.post" "rkey1"), signing_key := "zKey1",
    ckb_addr := some "addr1" }

/-- All-success `preDirectWrites` environment. -/
def wPdwEnv : PdwEnv :=
  { account := some wAccount, authDid := some (some "did:web5:alice"),
    prepare := fun _ => .ok .delete, parseCid := fun s => some s,
    genCommit := .ok { did := "did:web5:alice", rev := "rev1", data := "cidData",
                       prev := none, version := 3 } }

/-- A small `preDirectWrites` request. -/
def wPdwReq : PdwRequest :=
  { repo := "did:web5:alice", validate := none, swap_commit := none,
    writes := [.delete "app.bbs.post" "rkey1"] }

/-- A `preDirectWrites` request with 201 write operations. -/
def wPdwReq201 : PdwRequest :=
  { repo := "did:web5:alice", validate := none, swap_commit := none,
    writes := List.replicate 201 (.delete "app.bbs.post" "rkey1") }

/-- All-success `createAccount` environment. -/
def wCaEnv : CaEnv :=
  { resolve := .error .CkbDidocCellNotFound,
    createRepo := .ok { cid := "cid0", rev := "rev0" }, destroyOk := true,
    createAccount := .ok ("aj", "rj"), seqIdentityOk := true, seqAccountOk := true,
    seqCommitOk := true, seqSyncOk := true, updateRootOk := true }

/-- Sample `createAccount` request. -/
def wCaReq : CaRequest :=
  { handle := "alice.test", signing_key := "zKey1", password := "pw",
    rootDid := "did:web5:alice", ckb_addr := "addrNew", invite_code := none }

/-- The output of the `wCaEnv`/`wCaReq` run. -/
def wCaOut : CaOutput :=
  { access_jwt := "aj", refresh_jwt := "rj", handle := "alice.test",
    did := "did:web5:alice", did_doc := none }

/-- All-success `indexAction` environment with a resolved document. -/
def wIaEnv : IaEnv :=
  { account := some (some wAccount), resolve := .ok wDoc, now := 1000,
    sigVerify := .ok true, createSession := .ok ("aj", "rj"), destroyOk := true,
    deleteOk := true, seqAccountOk := true, accountSeq := 7, compactOk := true }

/-- A fresh, well-bound `indexAction` session request. -/
def wIaReq : IaRequest :=
  { did := "did:web5:alice", message := "Timestamp: 1000\nxx Create a new session yy",
    signing_key := "zKey1", signed_bytes := "ab", ckb_addr := some "addr1",
    index := .CreateSessionIndex }

/-- The same request with a mismatched ledger address. -/
def wIaReqBadAddr : IaRequest :=
  { did := "did:web5:alice", message := "Timestamp: 1000\nxx Create a new session yy",
    signing_key := "zKey1", signed_bytes := "ab", ckb_addr := some "addr2",
    index := .CreateSessionIndex }

/-- A fresh, well-bound `indexAction` delete-account request. -/
def wIaReqDel : IaRequest :=
  { did := "did:web5:alice", message := "Timestamp: 1000\nxx Delete the account yy",
    signing_key := "zKey1", signed_bytes := "ab", ckb_addr := some "addr1",
    index := .DeleteAccountIndex }

/-- `preIndexAction` environment in the document-missing fallback. -/
def wPiaEnv : PiaEnv :=
  { resolve := .error .CkbDidocCellNotFound, domain := some "pds.test", now := 77 }

/-- `preIndexAction` session request for the fallback run. -/
def wPiaReq : PiaRequest :=
  { did := "did:web5:alice", ckb_addr := some "addr1", index := .CreateSessionIndex }

/-- The unsigned commit of the `wPdwEnv` run. -/
def wCommit : UnsignedCommit :=
  { did := "did:web5:alice", rev := "rev1", data := "cidData", prev := none, version := 3 }

/-- The output of the `wPdwEnv`/`wPdwReq` run. -/
def wPdwOut : PdwOutput :=
  { did := "did:web5:alice", rev := "rev1", data := "cidData", prev := none, version := 3,
    un_sign_bytes := hexEncodeBytes (dagCborCommit wCommit) }


/-! ## Theorems -/

/-- The write-preparation effects contribute no sequencer event. -/
theorem filter_seq_replicate (n : Nat) :
    List.filter Effect.isSeqEvent (List.replicate n Effect.prepareWrite) = [] := by
  induction n with
  | zero => rfl
  | succ n ih => simp [List.replicate_succ, Effect.isSeqEvent, ih]

/-- C2: on a successful `createAccount`, events are appended in the fixed
order Identity, AccountStatus, Commit, Sync; each event is appended only
after all earlier ones succeeded; the repo-root pointer is advanced only
after all four; and a successful `directWrites` emits exactly one Commit
event and no Identity, AccountStatus or Sync event. -/
theorem c2_event_order (env : CaEnv) (req : CaRequest) (dwenv : DwEnv) (dwreq : DwRequest) :
    (∀ commit out tr, env.createRepo = .ok commit →
      create_account env req = (.ok out, tr) →
      tr = [.resolveDidoc req.ckb_addr, .storeCreateRepo, .accCreate req.rootDid,
            .seqIdentity req.rootDid (some req.handle),
            .seqAccount req.rootDid .Active,
            .seqCommit req.rootDid, .seqSync req.rootDid,
            .accUpdateRoot req.rootDid commit.cid commit.rev]) ∧
    (∀ r tr, create_account env req = (r, tr) →
      ((Effect.seqAccount req.rootDid .Active) ∈ tr → env.seqIdentityOk = true) ∧
      ((Effect.seqCommit req.rootDid) ∈ tr →
        env.seqIdentityOk = true ∧ env.seqAccountOk = true) ∧
      ((Effect.seqSync req.rootDid) ∈ tr →
        env.seqIdentityOk = true ∧ env.seqAccountOk = true ∧ env.seqCommitOk = true) ∧
      (∀ c rv, (Effect.accUpdateRoot req.rootDid c rv) ∈ tr →
        env.seqIdentityOk = true ∧ env.seqAccountOk = true ∧ env.seqCommitOk = true ∧
          env.seqSyncOk = true)) ∧
    (∀ account out tr, dwenv.account = some account →
      inner_direct_writes dwenv dwreq = (.ok out, tr) →
      tr.filter Effect.isSeqEvent = [.seqCommit account.did]) := by
  refine ⟨?_, ?_, ?_⟩
  · intro commit out tr hrepo h
    unfold create_account at h
    repeat' split at h
    all_goals simp_all
  · intro r tr h
    unfold create_account at h
    repeat' split at h
    all_goals (rw [Prod.mk.injEq] at h; obtain ⟨h1, h2⟩ := h; subst h2)
    all_goals simp_all
  · intro account out tr hacc h
    unfold inner_direct_writes at h
    repeat' split at h
    all_goals (rw [Prod.mk.injEq] at h; obtain ⟨h1, h2⟩ := h; subst h2)
    all_goals simp_all [Effect.isSeqEvent, List.filter_append, filter_seq_replicate]

/-- C1: for a `directWrites` request carrying a swap-commit expectation that
reaches the object store, `SwapMismatch` is returned iff the account's live
previous-commit identifier differs from the caller-supplied expectation, and
on a mismatch nothing touches the object store and neither a repo-root update
nor a commit event is attempted. -/
theorem c1_swap_cas (env : DwEnv) (req : DwRequest) (a : String) (account : ActorAccount)
    (prepared : List PreparedWrite) (s c : String) :
    dwPreSize env req a account →
    req.writes.length ≤ 200 →
    sequenceE (req.writes.map env.prepare) = .ok prepared →
    req.swap_commit = some s →
    env.parseCid s = some c →
    (((inner_direct_writes env req).1 = .error .SwapMismatch) ↔ env.livePrev ≠ some c) ∧
    (env.livePrev ≠ some c →
      ∀ e ∈ (inner_direct_writes env req).2,
        e.isObjectStore = false ∧ (∀ d cid rev, e ≠ .accUpdateRoot d cid rev)) := by
  intro hpre hlen hprep hswap hparse
  obtain ⟨h1, h2, h3, h4, h5, h6⟩ := hpre
  have hlen' : ¬ (200 < req.writes.length) := by omega
  by_cases hc : env.livePrev = some c
  · have hne : (inner_direct_writes env req).1 ≠ .error .SwapMismatch := by
      cases hb1 : env.sigOk <;> cases hb2 : env.storageOk <;> cases hb3 : env.seqCommitOk <;>
        cases hb4 : env.updateRootOk <;>
        simp [inner_direct_writes, h1, h2, h3, h4, h5, h6, hswap, hparse, hprep,
          dwSwapCid, verify_writes, verify_writes_apply, hc, hb1, hb2, hb3, hb4, hlen']
    refine ⟨⟨fun hfalse => absurd hfalse hne, fun hr => absurd hc hr⟩,
      fun hr => absurd hc hr⟩
  · have hrun : inner_direct_writes env req =
        (.error .SwapMismatch, Effect.getAccount req.repo :: Effect.resolveDidoc a ::
          List.map (fun _ => Effect.prepareWrite) req.writes) := by
      simp only [inner_direct_writes, h1, h2, h3, h4, h5, h6, hswap, hparse, hprep,
        dwSwapCid, verify_writes, verify_writes_apply, hc]
      repeat' split
      all_goals simp_all
    rw [hrun]
    refine ⟨by simp [hc], fun _ e he => ?_⟩
    rcases List.mem_cons.mp he with rfl | he
    · simp [Effect.isObjectStore]
    rcases List.mem_cons.mp he with rfl | he
    · simp [Effect.isObjectStore]
    rcases List.mem_map.mp he with ⟨wop, _, rfl⟩
    simp [Effect.isObjectStore]

theorem isPre_append_drop : ∀ (p s : List Char), isPre p s = true → s = p ++ s.drop p.length
  | [], s, _ => by simp
  | _ :: _, [], h => by simp [isPre] at h
  | a :: as, b :: bs, h => by
    simp only [isPre, Bool.and_eq_true, beq_iff_eq] at h
    obtain ⟨rfl, h2⟩ := h
    simpa using isPre_append_drop as bs h2

/-- A string starting with `at://` is `at://` followed by its byte-5 suffix. -/
theorem startsWith_at_reconstruct (s : String) (h : rustStartsWith s "at://" = true) :
    s = "at://" ++ rustDrop s 5 := by
  unfold rustStartsWith at h
  have h2 := isPre_append_drop _ _ h
  exact congrArg String.mk h2

/-- Decoding a successful `directWrites` identity-document check: the
account's handle exists, the document's first `alsoKnownAs` entry is exactly
`at://` followed by that handle, and the signing key is among the document's
verification-method values. -/
theorem dwDidocCheck_ok (didoc : Web5DocumentData) (account : ActorAccount) (sk : String)
    (h : dwDidocCheck (.ok didoc) account sk = .ok ()) :
    ∃ hd, account.handle = some hd ∧
      didoc.also_known_as.headD "" = "at://" ++ hd ∧
      (didoc.verification_methods.map Prod.snd).contains sk = true := by
  unfold dwDidocCheck at h
  repeat' split at h
  all_goals simp_all
  all_goals (try (split at h <;> simp_all; done))
  rename_i heq1 hcond hhd hkeys
  exact startsWith_at_reconstruct _ hcond.2

/-- Decoding a successful `indexAction` identity-document step when the
resolver returned a document (no fallback). -/
theorem iaResolveStep_ok_doc (didoc : Web5DocumentData) (user : ActorAccount) (sk : String)
    (p : Option Web5DocumentData × String)
    (h : iaResolveStep (.ok didoc) user sk = .ok p) :
    p.1 = some didoc ∧ ∃ hd, user.handle = some hd ∧ p.2 = hd ∧
      didoc.also_known_as.headD "" = "at://" ++ hd ∧
      (didoc.verification_methods.map Prod.snd).contains sk = true := by
  unfold iaResolveStep at h
  repeat' split at h
  all_goals simp_all
  all_goals (try (split at h <;> simp_all; done))
  rename_i hdd hcond hhd hkeys
  split at h
  · rename_i hs
    simp only [Except.ok.injEq] at h
    subst h
    subst hs
    exact ⟨rfl, rfl, startsWith_at_reconstruct _ hcond.2⟩
  · simp_all

/-- The verification phase of `inner_index_action` attempts no mutation. -/
theorem iaVerify_trace_pure (env : IaEnv) (req : IaRequest) :
    ∀ r tr, iaVerify env req = (r, tr) → ∀ eff ∈ tr, eff.isMutation = false := by
  intro r tr h
  unfold iaVerify at h
  repeat' split at h
  all_goals (rw [Prod.mk.injEq] at h; obtain ⟨h1, h2⟩ := h; subst h2; subst h1)
  all_goals (repeat' split)
  all_goals simp_all [Effect.isMutation]

/-- A successful verification phase pins down the account lookup, the address
binding and the identity-document step. -/
theorem iaVerify_ok_shape (env : IaEnv) (req : IaRequest) (v : IaVerified)
    (tr : List Effect) (h : iaVerify env req = (.ok v, tr)) :
    ∃ a, req.ckb_addr = some a ∧ env.account = some (some v.user) ∧
      v.user.ckb_address = some a ∧
      iaResolveStep env.resolve v.user req.signing_key = .ok (v.did_doc, v.handle) := by
  unfold iaVerify at h
  repeat' split at h
  all_goals (rw [Prod.mk.injEq] at h; obtain ⟨h1, h2⟩ := h; subst h2)
  all_goals (repeat' split at h1)
  all_goals (try (exfalso; simp_all; done))
  simp only [Except.ok.injEq] at h1
  subst h1
  refine ⟨_, by assumption, by simp_all, by simp_all, by simp_all⟩

/-! ## Lemmas about the challenge string functions -/

theorem splitNl_ne_nil : ∀ l : List Char, splitNl l ≠ []
  | [] => by simp [splitNl]
  | c :: t => by
    simp only [splitNl]
    split
    · simp
    · split <;> simp

theorem splitNl_no_nl : ∀ l : List Char, '\n' ∉ l → splitNl l = [l]
  | [], _ => rfl
  | c :: t, h => by
    have hc : ¬ c = '\n' := fun hc => h (hc ▸ List.mem_cons_self c t)
    have ht := splitNl_no_nl t (fun hm => h (List.mem_cons_of_mem c hm))
    simp [splitNl, hc, ht]

theorem splitNl_line : ∀ (x rest : List Char), '\n' ∉ x →
    splitNl (x ++ '\n' :: rest) = x :: splitNl rest
  | [], rest, _ => by simp [splitNl]
  | c :: x, rest, h => by
    have hc : ¬ c = '\n' := fun hc => h (hc ▸ List.mem_cons_self c x)
    have hx := splitNl_line x rest (fun hm => h (List.mem_cons_of_mem c hm))
    rw [List.cons_append]
    simp only [splitNl, hc, if_false, hx]

theorem rustLines_line (x rest : List Char) (hx : '\n' ∉ x) :
    rustLines (x ++ '\n' :: rest) = stripCr x :: rustLines rest := by
  unfold rustLines
  rw [splitNl_line x rest hx]
  rcases hsp : splitNl rest with _ | ⟨p, ps⟩
  · exact absurd hsp (splitNl_ne_nil rest)
  · rfl

theorem rustLines_no_nl (l : List Char) (hne : l ≠ []) (hnl : '\n' ∉ l) :
    rustLines l = [l] := by
  unfold rustLines
  rw [splitNl_no_nl l hnl]
  simp [rustLinesPost, hne]

theorem isPre_refl : ∀ l : List Char, isPre l l = true
  | [] => rfl
  | c :: t => by simp [isPre, isPre_refl t]

theorem isPre_self_append : ∀ p r : List Char, isPre p (p ++ r) = true
  | [], _ => rfl
  | c :: t, r => by simp [isPre, isPre_self_append t r]

theorem containsSub_append_self : ∀ x b : List Char, containsSub (x ++ b) b = true
  | [], b => by
    cases b with
    | nil => rfl
    | cons c t => simp [containsSub, isPre_refl]
  | c :: x, b => by
    simp [containsSub, containsSub_append_self x b]

theorem digitVal_digitChar (k : Nat) (hk : k < 10) : digitVal (digitChar k) = k := by
  interval_cases k <;> rfl

theorem digitChar_facts (k : Nat) (hk : k < 10) :
    (digitChar k).isDigit = true ∧ (digitChar k).isWhitespace = false ∧
      digitChar k ≠ '\n' ∧ digitChar k ≠ '\r' ∧ digitChar k ≠ '+' ∧ digitChar k ≠ 'T' := by
  interval_cases k <;> exact ⟨rfl, rfl, by decide, by decide, by decide, by decide⟩

theorem mem_natDigitsCore : ∀ (fuel n : Nat) (acc : List Char) (c : Char),
    c ∈ natDigitsCore fuel n acc → c ∈ acc ∨ ∃ k, k < 10 ∧ c = digitChar k
  | 0, _, _, _, h => .inl h
  | fuel + 1, n, acc, c, h => by
    by_cases hn : n = 0
    · simp only [natDigitsCore, hn, if_true] at h
      exact .inl h
    · simp only [natDigitsCore, hn, if_false] at h
      rcases mem_natDigitsCore fuel (n / 10) _ c h with hm | hm
      · rcases List.mem_cons.mp hm with rfl | hm
        · exact .inr ⟨n % 10, Nat.mod_lt n (by omega), rfl⟩
        · exact .inl hm
      · exact .inr hm

theorem mem_natDigits (n : Nat) (c : Char) (h : c ∈ natDigits n) :
    ∃ k, k < 10 ∧ c = digitChar k := by
  unfold natDigits at h
  split at h
  · rcases List.mem_singleton.mp h with rfl
    exact ⟨0, by omega, rfl⟩
  · rcases mem_natDigitsCore n n [] c h with hm | hm
    · simp at hm
    · exact hm

theorem natDigitsCore_acc : ∀ (fuel n : Nat) (acc : List Char), n ≤ fuel →
    natDigitsCore fuel n acc = natDigitsCore fuel n [] ++ acc
  | 0, _, _, _ => by simp [natDigitsCore]
  | fuel + 1, n, acc, hf => by
    by_cases hn : n = 0
    · simp [natDigitsCore, hn]
    · have hstep : n / 10 ≤ fuel := by
        have hlt : n / 10 < n := Nat.div_lt_self (Nat.pos_of_ne_zero hn) (by decide)
        omega
      simp only [natDigitsCore, hn, if_false]
      rw [natDigitsCore_acc fuel (n / 10) _ hstep,
        natDigitsCore_acc fuel (n / 10) [digitChar (n % 10)] hstep]
      simp

theorem decValue_append_singleton (l : List Char) (c : Char) :
    decValue (l ++ [c]) = decValue l * 10 + digitVal c := by
  simp [decValue, List.foldl_append]

theorem decValue_natDigitsCore : ∀ (fuel n : Nat), n ≤ fuel →
    decValue (natDigitsCore fuel n []) = n
  | 0, n, hf => by
    have : n = 0 := by omega
    simp [natDigitsCore, this, decValue]
  | fuel + 1, n, hf => by
    by_cases hn : n = 0
    · simp [natDigitsCore, hn, decValue]
    · have hstep : n / 10 ≤ fuel := by
        have hlt : n / 10 < n := Nat.div_lt_self (Nat.pos_of_ne_zero hn) (by decide)
        omega
      simp only [natDigitsCore, hn, if_false]
      rw [natDigitsCore_acc fuel (n / 10) _ hstep, decValue_append_singleton,
        decValue_natDigitsCore fuel (n / 10) hstep,
        digitVal_digitChar _ (Nat.mod_lt n (by omega))]
      omega

theorem natDigits_ne_nil (n : Nat) : natDigits n ≠ [] := by
  unfold natDigits
  split
  · simp
  · intro hnil
    have hv := decValue_natDigitsCore n n (le_refl n)
    rw [hnil] at hv
    simp [decValue] at hv
    omega

theorem decValue_natDigits (n : Nat) : decValue (natDigits n) = n := by
  unfold natDigits
  split
  · simp_all [decValue, digitVal]
  · exact decValue_natDigitsCore n n (le_refl n)

theorem parseU64_natDigits (n : Nat) (hn : n < 2 ^ 64) : parseU64 (natDigits n) = some n := by
  have hmem := mem_natDigits n
  have hne := natDigits_ne_nil n
  have hplus : stripPlus (natDigits n) = natDigits n := by
    rcases hd : natDigits n with _ | ⟨c, t⟩
    · exact absurd hd hne
    · have hc : c ∈ natDigits n := hd ▸ List.mem_cons_self c t
      rcases hmem c hc with ⟨k, hk, rfl⟩
      simp [stripPlus, (digitChar_facts k hk).2.2.2.2.1]
  have hall : (natDigits n).all Char.isDigit = true := by
    rw [List.all_eq_true]
    intro c hc
    rcases hmem c hc with ⟨k, hk, rfl⟩
    exact (digitChar_facts k hk).1
  have hn2 : n < 18446744073709551616 := by simpa using hn
  unfold parseU64
  rw [hplus]
  simp [List.isEmpty_iff, hne, hall, decValue_natDigits, hn2]

theorem dropWhile_eq_self_of_all {p : Char → Bool} :
    ∀ l : List Char, (∀ c ∈ l, p c = false) → l.dropWhile p = l
  | [], _ => rfl
  | c :: t, h => by simp [List.dropWhile, h c (List.mem_cons_self c t)]

theorem rustTrim_natDigits (n : Nat) : rustTrim (natDigits n) = natDigits n := by
  have hws : ∀ c ∈ natDigits n, c.isWhitespace = false := by
    intro c hc
    rcases mem_natDigits n c hc with ⟨k, hk, rfl⟩
    exact (digitChar_facts k hk).2.1
  unfold rustTrim
  rw [dropWhile_eq_self_of_all _ hws,
    dropWhile_eq_self_of_all _ (fun c hc => hws c (List.mem_reverse.mp hc)),
    List.reverse_reverse]

theorem data_append (s t : String) : (s ++ t).data = s.data ++ t.data := rfl

theorem data_mk (l : List Char) : (⟨l⟩ : String).data = l := rfl

theorem isPre_tsLabel_false (c : Char) (l : List Char) (hc : c ≠ 'T') :
    isPre tsLabel (c :: l) = false := by
  have ht : tsLabel = 'T' :: "imestamp: ".data := by decide
  rw [ht]
  simp only [isPre, Bool.and_eq_false_iff]
  exact .inl (by simpa using fun hx => hc hx.symm)

theorem stripCr_head (c b : Char) (t : List Char) : ∃ r, stripCr (c :: b :: t) = c :: r := by
  unfold stripCr
  split
  · exact ⟨(b :: t).dropLast, by simp⟩
  · exact ⟨b :: t, rfl⟩

theorem trimStartCore_stop (fuel : Nat) (pat s : List Char) (h : isPre pat s = false) :
    trimStartCore fuel pat s = s := by
  cases fuel <;> simp [trimStartCore, h]

theorem trimStartMatches_label (dg : List Char) (hdg : isPre tsLabel dg = false) :
    trimStartMatchesL tsLabel (tsLabel ++ dg) = dg := by
  unfold trimStartMatchesL
  have h11 : tsLabel.length = 11 := by decide
  have hl : (tsLabel ++ dg).length = (10 + dg.length) + 1 := by
    simp [List.length_append, h11]
    omega
  rw [hl]
  simp only [trimStartCore, isPre_self_append, Bool.and_true]
  rw [if_pos (by decide), h11, show (11 : Nat) = tsLabel.length from h11.symm,
    List.drop_left]
  exact trimStartCore_stop _ _ _ hdg

theorem stripCr_tsline (n : Nat) :
    stripCr (tsLabel ++ natDigits n) = tsLabel ++ natDigits n := by
  unfold stripCr
  rw [List.getLast?_append_of_ne_nil _ (natDigits_ne_nil n)]
  rcases hlast : (natDigits n).getLast? with _ | c
  · simp
  · have hc : c ∈ natDigits n := by
      have hmem : c ∈ (natDigits n).getLast? := by simp [Option.mem_def, hlast]
      rcases List.mem_getLast?_eq_getLast hmem with ⟨hne2, hcl⟩
      rw [hcl]
      exact List.getLast_mem hne2
    rcases mem_natDigits n c hc with ⟨k, hk, rfl⟩
    simp [(digitChar_facts k hk).2.2.2.1]

theorem extract_lines_skip (line : List Char) (rest : List (List Char))
    (h : isPre tsLabel line = false) :
    extract_timestamp_lines (line :: rest) = extract_timestamp_lines rest := by
  simp [extract_timestamp_lines, h]

theorem extract_skip_head (c : Char) (hc : c ≠ 'T') (b : Char) (t : List Char)
    (rest : List (List Char)) :
    extract_timestamp_lines (stripCr (c :: b :: t) :: rest) = extract_timestamp_lines rest := by
  obtain ⟨r, hr⟩ := stripCr_head c b t
  rw [hr, extract_lines_skip _ _ (isPre_tsLabel_false c r hc)]

theorem extract_hit_ts (n : Nat) (rest : List (List Char)) (hn : n < 2 ^ 64) :
    extract_timestamp_lines ((tsLabel ++ natDigits n) :: rest) = .ok n := by
  have hdg : isPre tsLabel (natDigits n) = false := by
    rcases hd : natDigits n with _ | ⟨c, t⟩
    · exact absurd hd (natDigits_ne_nil n)
    · have hc : c ∈ natDigits n := hd ▸ List.mem_cons_self c t
      rcases mem_natDigits n c hc with ⟨k, hk, rfl⟩
      exact isPre_tsLabel_false _ _ (digitChar_facts k hk).2.2.2.2.2
  simp [extract_timestamp_lines, isPre_self_append,
    trimStartMatches_label _ hdg, rustTrim_natDigits, parseU64_natDigits n hn]

theorem statement_check_lines_of_mem (lines : List (List Char)) (stmt : List Char)
    (hex : ∃ l ∈ lines, containsSub l stmt = true) :
    statement_check_lines lines stmt = .ok true := by
  induction lines with
  | nil => rcases hex with ⟨l, hl, _⟩; simp at hl
  | cons x xs ih =>
    by_cases hx : containsSub x stmt = true
    · simp [statement_check_lines, hx]
    · rcases hex with ⟨l, hl, hcl⟩
      rcases List.mem_cons.mp hl with rfl | hl
      · simp_all
      · simp [statement_check_lines, hx, ih ⟨l, hl, hcl⟩]

theorem statement_check_lines_iff (lines : List (List Char)) (stmt : List Char) :
    statement_check_lines lines stmt = .ok true ↔
      lines.any (fun l => containsSub l stmt) = true := by
  induction lines with
  | nil => simp [statement_check_lines]
  | cons x xs ih =>
    by_cases hx : containsSub x stmt = true
    · simp [statement_check_lines, hx]
    · simp [statement_check_lines, hx, ih]

theorem statement_check_lines_never_false (lines : List (List Char)) (stmt : List Char)
    (b : Bool) (h : statement_check_lines lines stmt = .ok b) : b = true := by
  induction lines with
  | nil => simp [statement_check_lines] at h
  | cons x xs ih =>
    by_cases hx : containsSub x stmt = true
    · simp [statement_check_lines, hx] at h
      exact h
    · simp [statement_check_lines, hx] at h
      exact ih h

/-- C9: for newline-free domain, address and handle, the challenge produced
by `generate_challenge` round-trips: `extract_timestamp` returns exactly the
embedded Unix timestamp, and `statement_check` with the same action statement
succeeds. -/
theorem c9_challenge_roundtrip (d a h stmt : String) (ts : Nat)
    (hd : '\n' ∉ d.data) (ha : '\n' ∉ a.data) (hh : '\n' ∉ h.data)
    (hstmt : '\n' ∉ stmt.data) (hts : ts < 2 ^ 64) :
    extract_timestamp (generate_challenge d a h ts stmt) = .ok ts ∧
    statement_check (generate_challenge d a h ts stmt) stmt = .ok true := by
  have hmsg : (generate_challenge d a h ts stmt).data =
      "Web5 Login".data ++ '\n' :: (("Domain: ".data ++ d.data) ++ '\n' ::
        (("Address: ".data ++ a.data) ++ '\n' :: (("Handle: ".data ++ h.data) ++ '\n' ::
          ((tsLabel ++ natDigits ts) ++ '\n' :: ("Statement: ".data ++ stmt.data))))) := by
    have e1 : ("Web5 Login\nDomain: " : String).data =
        "Web5 Login".data ++ '\n' :: "Domain: ".data := by decide
    have e2 : ("\nAddress: " : String).data = '\n' :: "Address: ".data := by decide
    have e3 : ("\nHandle: " : String).data = '\n' :: "Handle: ".data := by decide
    have e4 : ("\nTimestamp: " : String).data = '\n' :: tsLabel := by decide
    have e5 : ("\nStatement: " : String).data = '\n' :: "Statement: ".data := by decide
    simp only [generate_challenge, data_append, data_mk, e1, e2, e3, e4, e5]
    rw [show tsLabel = ['T','i','m','e','s','t','a','m','p',':',' '] from by decide]
    simp [List.append_assoc]
  have hnl1 : '\n' ∉ "Web5 Login".data := by decide
  have hnl2 : '\n' ∉ "Domain: ".data ++ d.data := by
    simp only [List.mem_append]
    rintro (hx | hx)
    · exact absurd hx (by decide)
    · exact hd hx
  have hnl3 : '\n' ∉ "Address: ".data ++ a.data := by
    simp only [List.mem_append]
    rintro (hx | hx)
    · exact absurd hx (by decide)
    · exact ha hx
  have hnl4 : '\n' ∉ "Handle: ".data ++ h.data := by
    simp only [List.mem_append]
    rintro (hx | hx)
    · exact absurd hx (by decide)
    · exact hh hx
  have hnl5 : '\n' ∉ tsLabel ++ natDigits ts := by
    simp only [List.mem_append]
    rintro (hx | hx)
    · exact absurd hx (by decide)
    · rcases mem_natDigits ts _ hx with ⟨k, hk, he⟩
      exact (digitChar_facts k hk).2.2.1 he.symm
  have hnl6 : '\n' ∉ "Statement: ".data ++ stmt.data := by
    simp only [List.mem_append]
    rintro (hx | hx)
    · exact absurd hx (by decide)
    · exact hstmt hx
  have hne6 : "Statement: ".data ++ stmt.data ≠ [] := by
    intro hx
    have : ('S' : Char) ∈ "Statement: ".data ++ stmt.data := by
      simp only [List.mem_append]
      exact .inl (by decide)
    rw [hx] at this
    simp at this
  have hlines : rustLines (generate_challenge d a h ts stmt).data =
      stripCr "Web5 Login".data :: stripCr ("Domain: ".data ++ d.data) ::
      stripCr ("Address: ".data ++ a.data) :: stripCr ("Handle: ".data ++ h.data) ::
      stripCr (tsLabel ++ natDigits ts) :: [("Statement: ".data ++ stmt.data)] := by
    rw [hmsg, rustLines_line _ _ hnl1, rustLines_line _ _ hnl2, rustLines_line _ _ hnl3,
      rustLines_line _ _ hnl4, rustLines_line _ _ hnl5, rustLines_no_nl _ hne6 hnl6]
  constructor
  · rw [extract_timestamp, hlines]
    rw [extract_lines_skip _ _ (by decide)]
    rw [show "Domain: ".data ++ d.data = 'D' :: 'o' :: ("main: ".data ++ d.data) by
      rw [show "Domain: ".data = 'D' :: 'o' :: "main: ".data by decide]; rfl]
    rw [extract_skip_head 'D' (by decide) _ _ _]
    rw [show "Address: ".data ++ a.data = 'A' :: 'd' :: ("dress: ".data ++ a.data) by
      rw [show "Address: ".data = 'A' :: 'd' :: "dress: ".data by decide]; rfl]
    rw [extract_skip_head 'A' (by decide) _ _ _]
    rw [show "Handle: ".data ++ h.data = 'H' :: 'a' :: ("ndle: ".data ++ h.data) by
      rw [show "Handle: ".data = 'H' :: 'a' :: "ndle: ".data by decide]; rfl]
    rw [extract_skip_head 'H' (by decide) _ _ _]
    rw [stripCr_tsline ts]
    exact extract_hit_ts ts _ hts
  · rw [statement_check, hlines]
    apply statement_check_lines_of_mem
    refine ⟨"Statement: ".data ++ stmt.data, by simp, containsSub_append_self _ _⟩

/-- C3 counterexample: `indexAction` accepts this challenge although its
embedded timestamp (5000) is not within 120 seconds of the verification
clock (1000) and no line of the message equals the expected statement
exactly: acceptance is governed by saturating subtraction and substring
containment instead. -/
theorem c3_counterexample :
    isOkB (inner_index_action c3env c3req).1 = true ∧
    extract_timestamp c3req.message = .ok 5000 ∧
    withinWindow c3env.now 5000 = false ∧
    (rustLines c3req.message.data).all
      (fun line => !(line == c3req.index.statement.data)) = true := by decide

/-- C3 (amended): when the surrounding steps of `indexAction` succeed, the
challenge is accepted iff its extracted timestamp `ts` satisfies
`now - ts < 120` under truncated subtraction (so a future timestamp always
passes) and some line of the message contains the expected statement as a
substring. -/
theorem c3_amended_acceptance (env : IaEnv) (req : IaRequest) (user : ActorAccount)
    (a : String) (p : Option Web5DocumentData × String) (aj rj : String) :
    req.ckb_addr = some a →
    env.account = some (some user) →
    user.ckb_address = some a →
    iaResolveStep env.resolve user req.signing_key = .ok p →
    (∃ bs, hexDecodeL (strip0x req.signed_bytes).data = some bs) →
    env.sigVerify = .ok true →
    env.createSession = .ok (aj, rj) →
    env.destroyOk = true → env.deleteOk = true → env.seqAccountOk = true →
    env.compactOk = true →
    (isOkB (inner_index_action env req).1 = true ↔
      ((∃ ts, extract_timestamp req.message = .ok ts ∧ env.now - ts < 120) ∧
        (rustLines req.message.data).any
          (fun line => containsSub line req.index.statement.data) = true)) := by
  intro h1 h2 h3 h4 h8 h9 h10 hd1 hd2 hd3 hd4
  obtain ⟨pd, ph⟩ := p
  obtain ⟨bs, hbs⟩ := h8
  rcases hext : extract_timestamp req.message with e | ts
  · simp [inner_index_action, iaVerify, h1, h2, h3, h4, hext, isOkB]
  · by_cases hts : timestamp_check env.now ts = true
    · rcases hstc : statement_check req.message req.index.statement with e2 | b
      · have hrhs : (rustLines req.message.data).any
            (fun line => containsSub line req.index.statement.data) = false := by
          by_contra hx
          have hx2 : (rustLines req.message.data).any
              (fun line => containsSub line req.index.statement.data) = true := by
            simpa using hx
          have := (statement_check_lines_iff _ _).mpr hx2
          rw [statement_check] at hstc
          simp_all
        simp [inner_index_action, iaVerify, h1, h2, h3, h4, hext, hts, hstc, isOkB, hrhs]
      · have hb : b = true := statement_check_lines_never_false _ _ _
          (by rw [statement_check] at hstc; exact hstc)
        subst hb
        have hok : isOkB (inner_index_action env req).1 = true := by
          cases hidx : req.index <;> rw [hidx] at hstc <;>
            simp [inner_index_action, iaVerify, h1, h2, h3, h4, hext, hts, hstc, hbs,
              h9, h10, hd1, hd2, hd3, hd4, hidx, isOkB]
        have hts2 : env.now - ts < 120 := by simpa [timestamp_check] using hts
        have hany : (rustLines req.message.data).any
            (fun line => containsSub line req.index.statement.data) = true :=
          (statement_check_lines_iff _ _).mp (by rw [statement_check] at hstc; exact hstc)
        simp [hok, hext, hts2, hany]
    · have hts2 : ¬ (env.now - ts < 120) := by simpa [timestamp_check] using hts
      simp [inner_index_action, iaVerify, h1, h2, h3, h4, hext, hts, isOkB, hts2]

/-- C10: when the ledger has no identity cell (`CkbDidocCellNotFound`),
`indexAction` proceeds with handle `deleteHandle` and no document for any
action, including session creation with an arbitrary caller-supplied signing
key, whereas `preIndexAction` accepts this fallback only for the
delete-account action and rejects session creation with the same error. -/
theorem c10_missing_didoc_fallback (env : IaEnv) (req : IaRequest)
    (penv : PiaEnv) (preq : PiaRequest) (user : ActorAccount)
    (a pa dom : String) (ts : Nat) (aj rj : String) :
    (env.resolve = .error .CkbDidocCellNotFound →
      req.ckb_addr = some a →
      env.account = some (some user) →
      user.ckb_address = some a →
      extract_timestamp req.message = .ok ts →
      timestamp_check env.now ts = true →
      statement_check req.message req.index.statement = .ok true →
      (∃ bs, hexDecodeL (strip0x req.signed_bytes).data = some bs) →
      env.sigVerify = .ok true →
      env.createSession = .ok (aj, rj) →
      req.index = .CreateSessionIndex →
      inner_index_action env req =
        (.ok (.CreateSessionResult (rustToLower req.did) none "deleteHandle" user.email
          user.email_confirmed_at.isSome aj rj),
         [.getAccount (rustToLower req.did), .resolveDidoc a,
          .accCreateSession user.did])) ∧
    (penv.resolve = .error .CkbDidocCellNotFound →
      preq.ckb_addr = some pa →
      preq.index = .CreateSessionIndex →
      (inner_pre_index_action penv preq).1 = .error .CkbDidocCellNotFound) ∧
    (penv.resolve = .error .CkbDidocCellNotFound →
      preq.ckb_addr = some pa →
      penv.domain = some dom →
      preq.index = .DeleteAccountIndex →
      (inner_pre_index_action penv preq).1 =
        .ok { did := rustToLower preq.did, handle := "deleteHandle",
              message := generate_challenge dom pa "deleteHandle" penv.now
                PreIndexActionInputRef.DeleteAccountIndex.statement }) := by
  refine ⟨?_, ?_, ?_⟩
  · intro h1 h2 h3 h4 h5 h6 h7 h8 h9 h10 h11
    obtain ⟨bs, hbs⟩ := h8
    have hv : iaVerify env req =
        (.ok ⟨user, none, "deleteHandle"⟩,
         [.getAccount (rustToLower req.did), .resolveDidoc a]) := by
      simp [iaVerify, iaResolveStep, h1, h2, h3, h4, h5, h6, h7, hbs, h9]
    simp [inner_index_action, hv, h11, h10]
  · intro h1 h2 h3
    simp [inner_pre_index_action, h1, h2, h3]
  · intro h1 h2 h3 h4
    simp [inner_pre_index_action, h1, h2, h3, h4]

/-- C8: `preDirectWrites` is deterministic: two runs with identical collaborator
state and identical requests produce the same result, and on success the
returned `un_sign_bytes` is exactly the hex-encoded serialization of the
returned unsigned-commit fields, so the externally produced signature stays
valid across the two-phase round trip. -/
theorem c8_unsigned_bytes_deterministic (env env2 : PdwEnv) (req req2 : PdwRequest) :
    env = env2 → req = req2 →
    (inner_pre_writes env req).1 = (inner_pre_writes env2 req2).1 ∧
    (∀ out, (inner_pre_writes env req).1 = .ok out →
      out.un_sign_bytes = hexEncodeBytes (dagCborCommit
        { did := out.did, rev := out.rev, data := out.data, prev := out.prev,
          version := out.version })) := by
  intro he hr
  subst he
  subst hr
  refine ⟨rfl, ?_⟩
  intro out h
  unfold inner_pre_writes at h
  repeat' split at h
  all_goals simp_all
  subst h
  rfl

/-- C6: if any verification step of `indexAction` fails, the handler returns
that error and its trace contains no mutation: no session creation, no
object-store destruction, no account deletion and no event emission. -/
theorem c6_no_state_change_on_failure (env : IaEnv) (req : IaRequest) :
    ∀ e tr, iaVerify env req = (.error e, tr) →
      inner_index_action env req = (.error e, tr) ∧
      ∀ eff ∈ (inner_index_action env req).2, eff.isMutation = false := by
  intro e tr h
  have hrun : inner_index_action env req = (.error e, tr) := by
    simp [inner_index_action, h]
  exact ⟨hrun, by rw [hrun]; exact iaVerify_trace_pure env req _ tr h⟩

/-- C7: an accepted `DeleteAccount` action destroys the object store, deletes
the account row, appends a single `AccountStatus = Deleted` event and then
requests compaction excluding only that event's sequence number, in that
order, with no Identity, Commit or Sync event anywhere in the trace. -/
theorem c7_delete_account_order (env : IaEnv) (req : IaRequest) :
    ∀ v tr, iaVerify env req = (.ok v, tr) →
      req.index = .DeleteAccountIndex →
      env.destroyOk = true → env.deleteOk = true → env.seqAccountOk = true →
      env.compactOk = true →
      inner_index_action env req =
        (.ok .DeleteAccountResult,
          tr ++ [.storeDestroy (rustToLower req.did), .accDelete (rustToLower req.did),
                 .seqAccount (rustToLower req.did) .Deleted,
                 .seqCompact (rustToLower req.did) [env.accountSeq]]) ∧
      ∀ eff ∈ (inner_index_action env req).2,
        (∀ d oh, eff ≠ .seqIdentity d oh) ∧ (∀ d, eff ≠ .seqCommit d) ∧
          (∀ d, eff ≠ .seqSync d) := by
  intro v tr h hidx hd hdel hseq hcf
  have hrun : inner_index_action env req =
      (.ok .DeleteAccountResult,
        tr ++ [.storeDestroy (rustToLower req.did), .accDelete (rustToLower req.did),
               .seqAccount (rustToLower req.did) .Deleted,
               .seqCompact (rustToLower req.did) [env.accountSeq]]) := by
    simp [inner_index_action, h, hidx, hd, hdel, hseq, hcf]
  refine ⟨hrun, ?_⟩
  rw [hrun]
  intro eff heff
  rcases List.mem_append.mp heff with hin | hin
  · have hpure := iaVerify_trace_pure env req _ tr h eff hin
    cases eff <;> simp_all [Effect.isMutation]
  · fin_cases hin <;> simp

/-- C4: whenever `directWrites` applies its commit or `indexAction` executes
its action while the resolver returned a document, the supplied ledger
address equals the account's stored address, the document's first
`alsoKnownAs` entry is exactly `at://` followed by the account's stored
handle, and the supplied signing key is among the document's
verification-method values. -/
theorem c4_binding_checks (env : DwEnv) (req : DwRequest) (iaenv : IaEnv) (iareq : IaRequest)
    (didoc idoc : Web5DocumentData) :
    (env.resolve = .ok didoc →
      ∀ r tr, inner_direct_writes env req = (r, tr) → Effect.storeApply ∈ tr →
      ∃ a account hd, req.ckb_addr = some a ∧ env.account = some account ∧
        account.ckb_address = some a ∧ account.handle = some hd ∧
        didoc.also_known_as.headD "" = "at://" ++ hd ∧
        (didoc.verification_methods.map Prod.snd).contains req.signing_key = true) ∧
    (iaenv.resolve = .ok idoc →
      ∀ v tr, iaVerify iaenv iareq = (.ok v, tr) →
      ∃ a hd, iareq.ckb_addr = some a ∧ iaenv.account = some (some v.user) ∧
        v.user.ckb_address = some a ∧ v.user.handle = some hd ∧
        idoc.also_known_as.headD "" = "at://" ++ hd ∧
        (idoc.verification_methods.map Prod.snd).contains iareq.signing_key = true) := by
  constructor
  · intro hres r tr h hmem
    unfold inner_direct_writes at h
    repeat' split at h
    all_goals (rw [Prod.mk.injEq] at h; obtain ⟨h1, h2⟩ := h; subst h2; subst h1)
    all_goals (try (exfalso; simp_all [Effect.storeApply]; done))
    all_goals (simp only [hres] at *)
    all_goals (
      obtain ⟨hd, hh1, hh2, hh3⟩ := dwDidocCheck_ok _ _ _ (by assumption)
      refine ⟨_, _, hd, by assumption, by assumption, ?_, hh1, hh2, hh3⟩
      simp_all)
  · intro hres v tr h
    obtain ⟨a, ha1, ha2, ha3, ha4⟩ := iaVerify_ok_shape iaenv iareq v tr h
    rw [hres] at ha4
    obtain ⟨hp1, hd, hh1, hh2, hh3, hh4⟩ := iaResolveStep_ok_doc _ _ _ _ ha4
    exact ⟨a, hd, ha1, ha2, ha3, hh1, hh3, hh4⟩

set_option maxRecDepth 8192 in
/-- C5: a `directWrites` or `preDirectWrites` batch of more than 200
operations is rejected in full before any object-store interaction and before
any write is prepared; when the preceding checks pass the error is the
`InvalidRequest` size error; and a batch of exactly 200 operations passes the
size check (its writes are prepared). -/
theorem c5_batch_size (env : DwEnv) (req : DwRequest) (penv : PdwEnv) (preq : PdwRequest)
    (a : String) (account paccount : ActorAccount) :
    (∀ r tr, inner_direct_writes env req = (r, tr) → req.writes.length > 200 →
      isOkB r = false ∧
      (∀ e ∈ tr, e.isObjectStore = false ∧ e ≠ .prepareWrite) ∧
      (dwPreSize env req a account →
        r = .error (.InvalidRequest "Too many writes. Max: 200"))) ∧
    (∀ r tr, inner_pre_writes penv preq = (r, tr) → preq.writes.length > 200 →
      isOkB r = false ∧
      (∀ e ∈ tr, e.isObjectStore = false ∧ e ≠ .prepareWrite) ∧
      (pdwPreSize penv paccount →
        r = .error (.InvalidRequest "Too many writes. Max: 200"))) ∧
    (req.writes.length = 200 → dwPreSize env req a account →
      Effect.prepareWrite ∈ (inner_direct_writes env req).2) ∧
    (preq.writes.length = 200 → pdwPreSize penv paccount →
      Effect.prepareWrite ∈ (inner_pre_writes penv preq).2) := by
  refine ⟨?_, ?_, ?_, ?_⟩
  · intro r tr h hlen
    unfold inner_direct_writes at h
    repeat' split at h
    all_goals (rw [Prod.mk.injEq] at h; obtain ⟨h1, h2⟩ := h; subst h2; subst h1)
    all_goals simp_all [isOkB, Effect.isObjectStore, dwPreSize]
    all_goals (try (intros; subst_vars; simp_all))
    all_goals (intro hh; subst hh; simp_all)
  · intro r tr h hlen
    unfold inner_pre_writes at h
    repeat' split at h
    all_goals (rw [Prod.mk.injEq] at h; obtain ⟨h1, h2⟩ := h; subst h2; subst h1)
    all_goals simp_all [isOkB, Effect.isObjectStore, pdwPreSize]
    all_goals (try (intros; subst_vars; simp_all))
    all_goals (intro hh; subst hh; simp_all)
  · intro hlen hpre
    obtain ⟨h1, h2, h3, h4, h5, h6⟩ := hpre
    obtain ⟨w, ws, hw⟩ : ∃ w ws, req.writes = w :: ws := by
      cases hww : req.writes with
      | nil => rw [hww] at hlen; simp at hlen
      | cons w ws => exact ⟨w, ws, rfl⟩
    simp only [inner_direct_writes, h1, h2, h3, h4, h5, h6, hlen]
    repeat' split
    all_goals simp_all [hw]
  · intro hlen hpre
    obtain ⟨h1, h2, h3⟩ := hpre
    obtain ⟨w, ws, hw⟩ : ∃ w ws, preq.writes = w :: ws := by
      cases hww : preq.writes with
      | nil => rw [hww] at hlen; simp at hlen
      | cons w ws => exact ⟨w, ws, rfl⟩
    simp only [inner_pre_writes, h1, h2, h3, hlen]
    repeat' split
    all_goals simp_all [hw]

/-! ## Witness runs -/

/-- C1 witness: the concrete mismatching run returns `SwapMismatch`. -/
theorem c1_swap_cas_witness :
    (inner_direct_writes wDwEnv wDwReqSwap).1 = .error .SwapMismatch :=
  ((c1_swap_cas wDwEnv wDwReqSwap "addr1" wAccount [.delete] "cidOther" "cidOther"
      ⟨rfl, rfl, rfl, rfl, rfl, rfl⟩ (by decide) rfl rfl rfl).1).mpr (by decide)

/-- C2 witness: the concrete successful run emits the four events in order
and advances the root last. -/
theorem c2_event_order_witness :
    (create_account wCaEnv wCaReq).2 =
      [.resolveDidoc "addrNew", .storeCreateRepo, .accCreate "did:web5:alice",
       .seqIdentity "did:web5:alice" (some "alice.test"),
       .seqAccount "did:web5:alice" .Active, .seqCommit "did:web5:alice",
       .seqSync "did:web5:alice", .accUpdateRoot "did:web5:alice" "cid0" "rev0"] :=
  (c2_event_order wCaEnv wCaReq wDwEnv wDwReqSwap).1 { cid := "cid0", rev := "rev0" }
    wCaOut (create_account wCaEnv wCaReq).2 rfl (by decide)

/-- C3 witness: the amended acceptance condition holds on a concrete fresh,
statement-containing run. -/
theorem c3_amended_witness : isOkB (inner_index_action c3env c3req).1 = true :=
  (c3_amended_acceptance c3env c3req c3user "addr1" (none, "deleteHandle") "aj" "rj"
      rfl rfl rfl (by decide) ⟨[171], by decide⟩ rfl rfl rfl rfl rfl rfl).mpr
    ⟨⟨5000, by decide, by decide⟩, by decide⟩

/-- C4 witness: the concrete verified `indexAction` run satisfies all three
bindings. -/
theorem c4_binding_checks_witness :
    ∃ a hd, wIaReq.ckb_addr = some a ∧ wIaEnv.account = some (some wAccount) ∧
      wAccount.ckb_address = some a ∧ wAccount.handle = some hd ∧
      wDoc.also_known_as.headD "" = "at://" ++ hd ∧
      (wDoc.verification_methods.map Prod.snd).contains wIaReq.signing_key = true :=
  (c4_binding_checks wDwEnv wDwReqSwap wIaEnv wIaReq wDoc wDoc).2 rfl
    ⟨wAccount, some wDoc, "alice.test"⟩
    [.getAccount "did:web5:alice", .resolveDidoc "addr1"] (by decide)

set_option maxRecDepth 4096 in
/-- C5 witness: the concrete 201-write batch is rejected. -/
theorem c5_batch_size_witness :
    isOkB (inner_direct_writes wDwEnv wDwReq201).1 = false :=
  ((c5_batch_size wDwEnv wDwReq201 wPdwEnv wPdwReq201 "addr1" wAccount wAccount).1
    (inner_direct_writes wDwEnv wDwReq201).1 (inner_direct_writes wDwEnv wDwReq201).2
    Prod.mk.eta.symm (by decide)).1

/-- C6 witness: the concrete address-mismatch run fails with no mutation. -/
theorem c6_no_state_change_witness :
    inner_index_action wIaEnv wIaReqBadAddr =
      (.error (.InvalidRequest "Address is inconsistent with the original"),
       [.getAccount "did:web5:alice"]) :=
  (c6_no_state_change_on_failure wIaEnv wIaReqBadAddr
    (.InvalidRequest "Address is inconsistent with the original")
    [.getAccount "did:web5:alice"] (by decide)).1

/-- C7 witness: the concrete accepted deletion performs exactly the four
steps in order. -/
theorem c7_delete_account_witness :
    inner_index_action wIaEnv wIaReqDel =
      (.ok .DeleteAccountResult,
       [.getAccount "did:web5:alice", .resolveDidoc "addr1"] ++
         [.storeDestroy "did:web5:alice", .accDelete "did:web5:alice",
          .seqAccount "did:web5:alice" .Deleted, .seqCompact "did:web5:alice" [7]]) :=
  (c7_delete_account_order wIaEnv wIaReqDel ⟨wAccount, some wDoc, "alice.test"⟩
    [.getAccount "did:web5:alice", .resolveDidoc "addr1"]
    (by decide) rfl rfl rfl rfl rfl).1

/-- C8 witness: the concrete run's `un_sign_bytes` is the serialization of
its returned commit fields. -/
theorem c8_deterministic_witness :
    wPdwOut.un_sign_bytes = hexEncodeBytes (dagCborCommit
      { did := wPdwOut.did, rev := wPdwOut.rev, data := wPdwOut.data, prev := wPdwOut.prev,
        version := wPdwOut.version }) :=
  (c8_unsigned_bytes_deterministic wPdwEnv wPdwEnv wPdwReq wPdwReq rfl rfl).2
    wPdwOut (by decide)

/-- C9 witness: a concrete challenge round-trips. -/
theorem c9_challenge_roundtrip_witness :
    extract_timestamp
        (generate_challenge "pds.test" "addr1" "alice.test" 1234 "Delete the account") =
      .ok 1234 ∧
    statement_check
        (generate_challenge "pds.test" "addr1" "alice.test" 1234 "Delete the account")
        "Delete the account" = .ok true :=
  c9_challenge_roundtrip "pds.test" "addr1" "alice.test" "Delete the account" 1234
    (by decide) (by decide) (by decide) (by decide) (by decide)

/-- C10 witness: the concrete fallback run creates a session under handle
`deleteHandle`. -/
theorem c10_missing_didoc_witness :
    inner_index_action c3env c3req =
      (.ok (.CreateSessionResult "did:web5:alice" none "deleteHandle" none false "aj" "rj"),
       [.getAccount "did:web5:alice", .resolveDidoc "addr1",
        .accCreateSession "did:web5:alice"]) :=
  (c10_missing_didoc_fallback c3env c3req wPiaEnv wPiaReq c3user "addr1" "addr1" "pds.test"
    5000 "aj" "rj").1 rfl rfl rfl rfl (by decide) (by decide) (by decide)
    ⟨[171], by decide⟩ rfl rfl rfl

end Web5
